import Mathlib

/-!
Verification development for the `webapp` request-dispatch layer.

The repository composes middleware chains around terminal handlers and drives
per-request execution through a mutable context.  We shallowly embed the parts
of the code the claims are about:

* the `Chain` pipeline builder (its tests and callers are in the sources; the
  builder itself is modelled from the specification),
* Go's lexical `path.Clean`/`path.Join` (standard-library collaborators used by
  `routeGroup.calculateAbsolutePath`),
* `routeGroup` registration and `Use`/`With`/`Group` derivation,
* the tracking `responseWriter`,
* the old-style `Context` cursor primitive (`Next`/`Abort` with `AbortIndex`),
* the `Recovery` and `RequestID` middleware, and the `webapp` facade.

Handlers are embedded by their observable effect: a handler maps the list of
writes performed so far to the extended list of writes.
-/

/-! ## Chain (pipeline builder)

The chain sources are absent; only the chain test-suite and the call sites in
`routergroup.go` / `webapp.go` remain.  The definitions below are therefore
modelled from the spec. -/

/-- The sequence of byte-chunks written to the response recorder so far. -/
abbrev HBuf := List String

/-- A `ContextHandler` abstracted to its observable effect on the output buffer. -/
abbrev CHandler := HBuf → HBuf

/-- A middleware is a handler decorator, `Handler → Handler`. -/
abbrev Middleware := CHandler → CHandler

/-- An ordered, immutable sequence of middleware. -/
abbrev Chain := List Middleware

/-- Modelled from the spec: `NewChain` builds a chain from a literal sequence,
preserving order (`chain.go` is missing from the sources; only its tests and
callers are present). -/
def NewChain (ms : List Middleware) : Chain := ms

/-- Modelled from the spec: `Append` returns a new chain consisting of the
original elements followed by the given ones; the receiver is untouched. -/
def Chain.Append (c : Chain) (ms : List Middleware) : Chain := c ++ ms

/-- Modelled from the spec: `Extend` returns a new chain consisting of this
chain's elements followed by the other chain's elements. -/
def Chain.Extend (c other : Chain) : Chain := c ++ other

/-- Modelled from the spec: `Then` composes right-to-left — the stored sequence
is iterated in reverse, each step wrapping the accumulated handler, so the
first middleware added executes first at runtime and the terminal handler
executes last; the empty chain returns the terminal handler unchanged. -/
def Chain.Then (c : Chain) (h : CHandler) : CHandler :=
  List.foldr (fun m acc => m acc) h c

/-- A middleware that writes one marker and then invokes its next handler
(`middlewareWriter` in the chain test-suite). -/
def middlewareWriter (s : String) : Middleware :=
  fun next out => next (out ++ [s])

/-- A middleware that writes one marker and does NOT invoke its next handler
(`middlewareAbort` in the chain test-suite, generalised to any marker). -/
def middlewareAbortW (s : String) : Middleware :=
  fun _ out => out ++ [s]

/-- A terminal handler that writes a fixed sequence of chunks
(`finalHandler` in the test-suite writes `["H"]`). -/
def terminalWriter (t : List String) : CHandler :=
  fun out => out ++ t

/-! ## Go `path.Clean` and `path.Join`

`routeGroup.calculateAbsolutePath` delegates to Go's standard-library `path`
package.  The functions below transcribe its lexical cleaning algorithm; the
output buffer is kept reversed (most recent byte first). -/

/-- The backtracking loop of the `..` case of Go `path.Clean`:
`c` is the byte just removed from the buffer; bytes keep being removed while
the buffer is longer than `dotdot` and the removed byte is not a slash. -/
def gopathBacktrack : Char → List Char → Nat → List Char
  | c, out, dotdot =>
    if dotdot < out.length ∧ c ≠ '/' then
      match out with
      | [] => []
      | c2 :: out2 => gopathBacktrack c2 out2 dotdot
    else out

/-- The main scanning loop of Go `path.Clean`.  `inp` is the unread input,
`out` the (reversed) output buffer, `dotdot` the low-water mark up to which
`..` may backtrack, `rooted` whether the path began with a slash.  Every
iteration consumes at least one input byte, so `fuel := inp.length` makes the
fallback branch unreachable; the recursion is on `fuel` so that concrete paths
evaluate by reduction. -/
def gopathCleanLoop : Nat → List Char → List Char → Nat → Bool → List Char
  | 0, _, out, _, _ => out
  | _ + 1, [], out, _, _ => out
  | fuel + 1, c :: r, out, dotdot, rooted =>
    if c = '/' then
      -- empty path element
      gopathCleanLoop fuel r out dotdot rooted
    else if c = '.' ∧ (r.head? = none ∨ r.head? = some '/') then
      -- "." element
      gopathCleanLoop fuel r out dotdot rooted
    else if c = '.' ∧ r.head? = some '.' ∧ (r.tail.head? = none ∨ r.tail.head? = some '/') then
      -- ".." element
      if dotdot < out.length then
        gopathCleanLoop fuel r.tail
          (match out with
           | [] => []
           | c2 :: out2 => gopathBacktrack c2 out2 dotdot) dotdot rooted
      else if ¬ rooted then
        gopathCleanLoop fuel r.tail
          ('.' :: '.' :: (if 0 < out.length then '/' :: out else out))
          ('.' :: '.' :: (if 0 < out.length then '/' :: out else out)).length rooted
      else
        gopathCleanLoop fuel r.tail out dotdot rooted
    else
      -- real path element: add slash if needed, then copy the element
      gopathCleanLoop fuel (r.dropWhile (fun ch => ch ≠ '/'))
        ((r.takeWhile (fun ch => ch ≠ '/')).reverse ++
          (c :: (if (rooted ∧ out.length ≠ 1) ∨ (¬ rooted ∧ out.length ≠ 0)
                 then '/' :: out else out)))
        dotdot rooted

/-- Go `path.Clean`: lexically simplify a path. -/
def gopathClean (p : String) : String :=
  if p = "" then "."
  else
    let rooted := p.data.head? = some '/'
    let res :=
      if rooted then gopathCleanLoop p.data.length p.data.tail ['/'] 1 true
      else gopathCleanLoop p.data.length p.data [] 0 false
    if res.length = 0 then "." else ⟨res.reverse⟩

/-- Go `path.Join` restricted to two elements: empty leading elements are
skipped, the remainder is joined with a slash and cleaned. -/
def goPathJoin (a b : String) : String :=
  if a ≠ "" then gopathClean (a ++ "/" ++ b)
  else if b ≠ "" then gopathClean b
  else ""

/-! ## Route group (`routergroup.go`)

The router and debug logger are external collaborators; registration is
modelled by the `(method, absolutePath, composed handler)` triple handed to
`router.Handle`. -/

/-- A route group: a path prefix plus its middleware chain. -/
structure RouteGroupM where
  path : String
  middleware : Chain

/-- `lastChar` from `routergroup.go`: the final byte of a string (Go panics on
the empty string; every call site passes a non-empty string, so the default
value is never observable in-spec). -/
def lastChar (str : String) : Char :=
  str.data.getLastD '#'

/-- `routeGroup.calculateAbsolutePath`: an empty relative path reuses the
group's own path; otherwise the paths are joined and a trailing slash of the
relative path that the join dropped is restored. -/
def calculateAbsolutePath (group : RouteGroupM) (relativePath : String) : String :=
  if relativePath.length = 0 then group.path
  else
    let absolutePath := goPathJoin group.path relativePath
    if lastChar relativePath = '/' ∧ lastChar absolutePath ≠ '/' then
      absolutePath ++ "/"
    else absolutePath

/-- `routeGroup.Use`: pushes middleware on the group's chain (in Go this
mutates the receiver; here the updated group is returned). -/
def routeGroup.Use (group : RouteGroupM) (middleware : List Middleware) : RouteGroupM :=
  { group with middleware := group.middleware.Append middleware }

/-- `routeGroup.With`: a new group with the same path and an appended chain. -/
def routeGroup.With (group : RouteGroupM) (middleware : List Middleware) : RouteGroupM :=
  { path := group.path, middleware := group.middleware.Append middleware }

/-- `routeGroup.Group`: a child group at the joined path with an appended chain. -/
def routeGroup.Group (group : RouteGroupM) (relativePath : String)
    (middleware : List Middleware) : RouteGroupM :=
  { path := calculateAbsolutePath group relativePath,
    middleware := group.middleware.Append middleware }

/-- What `routeGroup.Handle` passes to `router.Handle`. -/
structure Registration where
  method : String
  absolutePath : String
  handler : CHandler

/-- `routeGroup.Handle`: computes the absolute path, composes the chain around
the terminal handler once, and registers the result. -/
def routeGroup.Handle (group : RouteGroupM) (httpMethod relativePath : String)
    (handler : CHandler) : Registration :=
  { method := httpMethod,
    absolutePath := calculateAbsolutePath group relativePath,
    handler := group.middleware.Then handler }

/-! ## Response writer (`responsewriter.go`)

The wrapped standard sink is an in-memory recorder, so the written body is kept
alongside the tracked status and size. -/

/-- The tracking response writer: recorded status, accumulated size, and the
bytes forwarded to the underlying recorder. -/
structure responseWriterM where
  status : Int
  size : Int
  body : String
deriving DecidableEq

/-- `responseWriter.WriteHeader`: records the status and forwards it. -/
def responseWriterM.WriteHeader (rw : responseWriterM) (status : Int) : responseWriterM :=
  { rw with status := status }

/-- `responseWriter.Written`: true iff a status has been recorded. -/
def responseWriterM.Written (rw : responseWriterM) : Bool :=
  rw.status != 0

/-- `responseWriter.Write`: forces a 200 status if none is set, forwards the
bytes, and accumulates their count. -/
def responseWriterM.Write (rw : responseWriterM) (data : String) : responseWriterM :=
  let rw := if rw.Written then rw else rw.WriteHeader 200
  { rw with size := rw.size + (data.length : Int), body := rw.body ++ data }

/-- `responseWriter.Status`. -/
def responseWriterM.Status (rw : responseWriterM) : Int := rw.status

/-- `responseWriter.Size`. -/
def responseWriterM.Size (rw : responseWriterM) : Int := rw.size

/-- One call against the response writer. -/
inductive RWOp where
  | writeHeader (status : Int)
  | write (data : String)
deriving DecidableEq

/-- Apply one call. -/
def applyOp (rw : responseWriterM) : RWOp → responseWriterM
  | .writeHeader s => rw.WriteHeader s
  | .write d => rw.Write d

/-- Run a sequence of calls. -/
def runOps (rw : responseWriterM) : List RWOp → responseWriterM
  | [] => rw
  | op :: rest => runOps (applyOp rw op) rest

/-- How many calls of a sequence change the recorded status. -/
def statusSets (rw : responseWriterM) : List RWOp → Nat
  | [] => 0
  | op :: rest =>
    (if (applyOp rw op).status ≠ rw.status then 1 else 0) + statusSets (applyOp rw op) rest

/-- The bytes a call writes. -/
def bytesOf : RWOp → Nat
  | .writeHeader _ => 0
  | .write d => d.length

/-! ## Execution context cursor (`context.go`, `webapp.go` of the old variant)

`Context.Next` advances an `int8` cursor over the resolved handler pipeline;
`Context.Abort` parks the cursor at `AbortIndex`.  The cursor is an `Int`
with the `int8` conversion applied wherever Go performs one. -/

/-- `AbortIndex = math.MaxInt8 / 2`. -/
def AbortIndex : Int := 127 / 2

/-- Go's conversion to `int8` (two's-complement wrap-around). -/
def int8cast (n : Int) : Int := (n + 128) % 256 - 128

/-- The observable per-request context state: the pipeline cursor and the
chunks written so far. -/
structure CtxState where
  index : Int
  out : List String
deriving DecidableEq

/-- The `for` loop of `Context.Next`: while `index < int8(len(handlers))`,
run `handlers[index]` and increment the cursor.  Handlers are arbitrary state
transformers (they may in particular move the cursor).  `fuel` bounds the
number of iterations; every claim below is independent of it. -/
def nextLoop (handlers : List (CtxState → CtxState)) : Nat → CtxState → CtxState
  | 0, st => st
  | fuel + 1, st =>
    if st.index < int8cast (handlers.length : Int) then
      let st2 := (handlers.getD st.index.toNat (fun c => c)) st
      nextLoop handlers fuel { st2 with index := int8cast (st2.index + 1) }
    else st

/-- `Context.Next`: increment the cursor, then run the remaining handlers. -/
def Context.NextM (handlers : List (CtxState → CtxState)) (fuel : Nat)
    (st : CtxState) : CtxState :=
  nextLoop handlers fuel { st with index := int8cast (st.index + 1) }

/-- `Context.Abort`: park the cursor at the sentinel. -/
def Context.AbortM (st : CtxState) : CtxState :=
  { st with index := AbortIndex }

/-- `Context.IsAborted`: the cursor equals the sentinel. -/
def Context.IsAbortedM (st : CtxState) : Bool :=
  st.index = AbortIndex

/-! ## The part_003 context and the `Recovery` middleware (`middleware.go`)

A handler computation yields the mutated context together with the message of
a panic that escaped it, if any. -/

/-- The fields of the part_003 `Context` that `Recovery` touches. -/
structure PContext where
  response : responseWriterM
  errors : List String
  index : Int
deriving DecidableEq

/-- `Context.ResponseWritten`. -/
def PContext.ResponseWritten (ctx : PContext) : Bool :=
  ctx.response.Written

/-- `Context.WriteHeader`. -/
def PContext.WriteHeader (ctx : PContext) (code : Int) : PContext :=
  { ctx with response := ctx.response.WriteHeader code }

/-- `Context.Write`. -/
def PContext.Write (ctx : PContext) (body : String) : PContext :=
  { ctx with response := ctx.response.Write body }

/-- `Context.Respond`: write the status code, then the body. -/
def PContext.Respond (ctx : PContext) (code : Int) (body : String) : PContext :=
  (ctx.WriteHeader code).Write body

/-- `Context.Abort` on the part_003 context. -/
def PContext.Abort (ctx : PContext) : PContext :=
  { ctx with index := AbortIndex }

/-- `Errors.Add`: append a diagnostic. -/
def PContext.addError (ctx : PContext) (e : String) : PContext :=
  { ctx with errors := ctx.errors ++ [e] }

/-- A context computation together with the message of an escaping panic. -/
abbrev PResult := PContext × Option String

/-- `Recovery` from `middleware.go`.  `inner` is the effect of `ctx.Next()` on
the rest of the pipeline; `stackTrace` abstracts the string `stack(3)` renders
from the runtime call stack.  On a recovered panic the context is aborted, the
formatted diagnostic is accumulated, the custom handler (if any) runs, and a
fixed 500 response is emitted if none has been written; the panic never
propagates further. -/
def RecoveryM (handler : Option (PContext → PContext)) (stackTrace : String)
    (inner : PContext → PResult) (ctx : PContext) : PResult :=
  match inner ctx with
  | (c, none) => (c, none)
  | (c, some msg) =>
    let c := c.Abort
    let formattedError := msg ++ "\nStack trace:\n" ++ stackTrace
    let c := c.addError formattedError
    let c :=
      match handler with
      | some h => h c
      | none => c
    let c := if c.ResponseWritten then c else c.Respond 500 "Internal server error"
    (c, none)

/-! ## The `RequestID` middleware (`middleware.go`)

`RequestID` asks the context for `Header().Get(RequestIDHeader)`; per the
part_003 `Context.Header` accessor this is the RESPONSE header map, not the
inbound request's. -/

/-- The header used to transmit the request ID. -/
def RequestIDHeader : String := "X-Request-Id"

/-- `RequestIDKey middlewareKey = 0`. -/
def RequestIDKey : Int := 0

/-- `http.Header.Get`: first value for the key, or the empty string. -/
def headerGet (hs : List (String × String)) (key : String) : String :=
  match hs.find? (fun p => p.1 = key) with
  | some p => p.2
  | none => ""

/-- The context pieces `RequestID` interacts with: the inbound request's
headers, the response headers (returned by `Context.Header`), and the
key/value bag written by `Context.Set`. -/
structure HContext where
  requestHeaders : List (String × String)
  responseHeaders : List (String × String)
  values : List (Int × String)
deriving DecidableEq

/-- `Context.Set` on the value bag (map update). -/
def HContext.set (ctx : HContext) (key : Int) (v : String) : HContext :=
  { ctx with values := (ctx.values.filter (fun p => p.1 ≠ key)) ++ [(key, v)] }

/-- The `RequestID` middleware body.  `reqPfx` models the process-wide random
prefix and `ctr` the value of the atomic counter before the call; the new
counter value is returned alongside the context. -/
def RequestIDM (reqPfx : String) (ctr : Int) (ctx : HContext) : HContext × Int :=
  let id := headerGet ctx.responseHeaders RequestIDHeader
  if id = "" then
    let newCtr := ctr + 1
    (ctx.set RequestIDKey (reqPfx ++ "-" ++ toString newCtr), newCtr)
  else
    (ctx.set RequestIDKey id, ctr)

/-! ## The application facade (`webapp.go`) -/

/-- `defaultNotFoundHandler`: `http.Error` writes the canonical text plus a
newline. -/
def defaultNotFoundHandlerM : CHandler :=
  fun out => out ++ ["Not Found\n"]

/-- `defaultMethodNotAllowedHandler`. -/
def defaultMethodNotAllowedHandlerM : CHandler :=
  fun out => out ++ ["Method Not Allowed\n"]

/-- The `webapp` facade: the embedded route group's chain, the stored fallback
handlers, and the composed fallbacks installed on the router. -/
structure WebappM where
  middleware : Chain
  notFoundHandler : CHandler
  routerNotFound : CHandler
  notAllowedHandler : Option CHandler
  routerNotAllowed : Option CHandler
  handleMethodNotAllowed : Bool

/-- `webapp.NotFound`: substitute the default for a nil handler, store it, and
install the chain-composed result on the router. -/
def webapp.NotFound (app : WebappM) (handler : Option CHandler) : WebappM :=
  let h :=
    match handler with
    | none => defaultNotFoundHandlerM
    | some h => h
  { app with notFoundHandler := h, routerNotFound := app.middleware.Then h }

/-- `webapp.MethodNotAllowed`: store the handler and toggle the router; a nil
handler only disables the toggle (the previously composed fallback is left in
place), a non-nil handler is chain-composed and installed. -/
def webapp.MethodNotAllowed (app : WebappM) (handler : Option CHandler) : WebappM :=
  let app := { app with notAllowedHandler := handler,
                        handleMethodNotAllowed := handler.isSome }
  match handler with
  | none => app
  | some h => { app with routerNotAllowed := some (app.middleware.Then h) }

/-- `webapp.New`: fresh facade with an empty chain, the default not-found
fallback, and the default method-not-allowed fallback. -/
def webapp.New : WebappM :=
  let app : WebappM :=
    { middleware := NewChain [], notFoundHandler := fun out => out,
      routerNotFound := fun out => out, notAllowedHandler := none,
      routerNotAllowed := none, handleMethodNotAllowed := false }
  let app := webapp.NotFound app none
  webapp.MethodNotAllowed app (some defaultMethodNotAllowedHandlerM)

/-- `webapp.Use`: extend the group's chain, then re-install both fallbacks so
they are composed with the extended chain. -/
def webapp.Use (app : WebappM) (middleware : List Middleware) : WebappM :=
  let app := { app with middleware := app.middleware.Append middleware }
  let app := webapp.NotFound app (some app.notFoundHandler)
  webapp.MethodNotAllowed app app.notAllowedHandler

/-! ## Helper lemmas -/

/-- `Then` distributes over chain concatenation. -/
theorem chainThen_append (c1 c2 : Chain) (h : CHandler) :
    Chain.Then (c1 ++ c2) h = Chain.Then c1 (Chain.Then c2 h) := by
  simp [Chain.Then, List.foldr_append]

/-- Running a chain of marker-writing middlewares appends all their markers in
order before the inner handler runs. -/
theorem thenWriters (ms : List String) (h : CHandler) (out : HBuf) :
    Chain.Then (ms.map middlewareWriter) h out = h (out ++ ms) := by
  induction ms generalizing out with
  | nil => simp [Chain.Then]
  | cons m rest ih =>
    show middlewareWriter m (Chain.Then (rest.map middlewareWriter) h) out = _
    simp [middlewareWriter, ih]

/-- C1: for a chain of marker-writing middlewares composed around a terminal
handler by `Then`, if every middleware invokes its next handler the output is
the markers in chain order followed by the terminal's output; and if the
middleware at position `k` writes its marker but does not invoke its next
handler, the output is exactly the markers of positions `0..k`, with nothing
from later positions nor the terminal. -/
theorem chain_order_and_abort_law :
    (∀ (ms t : List String),
      Chain.Then (NewChain (ms.map middlewareWriter)) (terminalWriter t) [] = ms ++ t)
  ∧ (∀ (pre : List String) (k : String) (post : List Middleware) (t : List String),
      Chain.Then (NewChain (pre.map middlewareWriter ++ middlewareAbortW k :: post))
        (terminalWriter t) [] = pre ++ [k]) := by
  constructor
  · intro ms t
    simp [NewChain, thenWriters, terminalWriter]
  · intro pre k post t
    show Chain.Then (pre.map middlewareWriter ++ middlewareAbortW k :: post)
        (terminalWriter t) [] = pre ++ [k]
    rw [chainThen_append, thenWriters]
    show middlewareAbortW k (Chain.Then post (terminalWriter t)) ([] ++ pre) = pre ++ [k]
    simp [middlewareAbortW]

/-- C8: composing the empty chain around any terminal handler is the identity:
the handler returned by `Then` on the empty chain is the terminal handler
itself. -/
theorem empty_chain_identity : ∀ h : CHandler, Chain.Then (NewChain []) h = h :=
  fun _ => rfl

/-- C2: middleware appended with `Use` after `Handle` was called on a group
never executes for the route registered earlier (the chain is resolved into a
fixed composed handler at registration time) but does execute for every route
registered on the group after the `Use` call. -/
theorem use_after_handle_snapshot :
    ∀ (p rel rel2 httpMethod httpMethod2 : String) (ms : List String) (m : String)
      (t t2 : List String),
      (routeGroup.Handle ⟨p, NewChain (ms.map middlewareWriter)⟩ httpMethod rel
          (terminalWriter t)).handler [] = ms ++ t
    ∧ (routeGroup.Handle
          (routeGroup.Use ⟨p, NewChain (ms.map middlewareWriter)⟩ [middlewareWriter m])
          httpMethod2 rel2 (terminalWriter t2)).handler [] = ms ++ m :: t2
    ∧ (m ∉ ms → m ∉ t →
        m ∉ (routeGroup.Handle ⟨p, NewChain (ms.map middlewareWriter)⟩ httpMethod rel
          (terminalWriter t)).handler []) := by
  intro p rel rel2 httpMethod httpMethod2 ms m t t2
  have h1 : (routeGroup.Handle ⟨p, NewChain (ms.map middlewareWriter)⟩ httpMethod rel
      (terminalWriter t)).handler [] = ms ++ t := by
    simp [routeGroup.Handle, NewChain, thenWriters, terminalWriter]
  refine ⟨h1, ?_, ?_⟩
  · show Chain.Then (NewChain (ms.map middlewareWriter) ++ [middlewareWriter m])
        (terminalWriter t2) [] = ms ++ m :: t2
    have : NewChain (ms.map middlewareWriter) ++ [middlewareWriter m]
        = (ms ++ [m]).map middlewareWriter := by
      simp [NewChain]
    rw [this, thenWriters]
    simp [terminalWriter]
  · intro hms ht
    rw [h1]
    simp only [List.mem_append]
    rintro (h | h)
    · exact hms h
    · exact ht h

/-- Witness for C2: with chain `["A"]`, the route registered before
`Use [middlewareWriter "B"]` outputs `["A","H"]` without `"B"`, while the
route registered afterwards outputs `["A","B","H"]`. -/
theorem use_after_handle_snapshot_witness :
    (routeGroup.Handle ⟨"/", NewChain (["A"].map middlewareWriter)⟩ "GET" "/a"
        (terminalWriter ["H"])).handler [] = ["A", "H"]
  ∧ (routeGroup.Handle
        (routeGroup.Use ⟨"/", NewChain (["A"].map middlewareWriter)⟩ [middlewareWriter "B"])
        "GET" "/b" (terminalWriter ["H"])).handler [] = ["A", "B", "H"]
  ∧ "B" ∉ (routeGroup.Handle ⟨"/", NewChain (["A"].map middlewareWriter)⟩ "GET" "/a"
        (terminalWriter ["H"])).handler [] := by
  have h := use_after_handle_snapshot "/" "/a" "/b" "GET" "GET" ["A"] "B" ["H"] ["H"]
  exact ⟨h.1, h.2.1, h.2.2 (by decide) (by decide)⟩

/-- `int8` conversion is the identity on the representable range. -/
theorem int8cast_eq_self {x : Int} (h1 : -128 ≤ x) (h2 : x ≤ 127) : int8cast x = x := by
  unfold int8cast
  have hmod : (x + 128) % 256 = x + 128 := Int.emod_eq_of_lt (by omega) (by omega)
  omega

/-- `Next`'s loop runs zero iterations when the cursor is at or past the
pipeline length. -/
theorem nextLoop_past (handlers : List (CtxState → CtxState)) (fuel : Nat) (st : CtxState)
    (h : int8cast (handlers.length : Int) ≤ st.index) :
    nextLoop handlers fuel st = st := by
  cases fuel with
  | zero => rfl
  | succ n =>
    rw [nextLoop]
    rw [if_neg (by omega)]

/-- C4: after `Abort()` the cursor equals the fixed sentinel `AbortIndex`,
which is strictly greater than every valid index of a legal (≤ 63 handlers)
pipeline; any `Next()` newly invoked on the aborted context executes no
handler; `Abort` is idempotent; `Next()` with the cursor at or past the end of
the pipeline is a safe no-op that only moves the cursor; and a pending `Next`
loop resuming after its handler aborted likewise runs no further handler. -/
theorem abort_sentinel_and_next_noop
    (handlers : List (CtxState → CtxState)) (st st2 : CtxState) (fuel : Nat)
    (hlen : handlers.length ≤ 63) :
    (Context.AbortM st).index = AbortIndex
  ∧ (∀ i : Nat, i < handlers.length → (i : Int) < AbortIndex)
  ∧ Context.AbortM (Context.AbortM st) = Context.AbortM st
  ∧ Context.NextM handlers fuel (Context.AbortM st)
      = { st with index := int8cast (AbortIndex + 1) }
  ∧ ((handlers.length : Int) ≤ st2.index → st2.index ≤ 126 →
      Context.NextM handlers fuel st2 = { st2 with index := int8cast (st2.index + 1) })
  ∧ (∀ st3 : CtxState, st3.index = AbortIndex →
      nextLoop handlers fuel { st3 with index := int8cast (st3.index + 1) }
        = { st3 with index := 64 }) := by
  have hcast : int8cast (handlers.length : Int) = (handlers.length : Int) :=
    int8cast_eq_self (by omega) (by omega)
  have h63' : (handlers.length : Int) ≤ 63 := by exact_mod_cast hlen
  refine ⟨rfl, ?_, rfl, ?_, ?_, ?_⟩
  · intro i hi
    have : (i : Int) < (handlers.length : Int) := by exact_mod_cast hi
    have h63 : (handlers.length : Int) ≤ 63 := by exact_mod_cast hlen
    show (i : Int) < AbortIndex
    unfold AbortIndex
    omega
  · show nextLoop handlers fuel { st with index := int8cast (AbortIndex + 1) } = _
    exact nextLoop_past handlers fuel _ (by
      show int8cast (handlers.length : Int) ≤ int8cast (AbortIndex + 1)
      rw [hcast, show int8cast (AbortIndex + 1) = 64 from rfl]
      omega)
  · intro hge hle
    show nextLoop handlers fuel { st2 with index := int8cast (st2.index + 1) } = _
    have hx : int8cast (st2.index + 1) = st2.index + 1 :=
      int8cast_eq_self (by omega) (by omega)
    rw [hx]
    exact nextLoop_past handlers fuel _ (by
      show int8cast (handlers.length : Int) ≤ st2.index + 1
      rw [hcast]; omega)
  · intro st3 h63
    rw [h63, show int8cast (AbortIndex + 1) = 64 from rfl]
    exact nextLoop_past handlers fuel _ (by
      show int8cast (handlers.length : Int) ≤ (64 : Int)
      rw [hcast]; omega)

/-- Witness for C4: a one-handler pipeline; `Next` after `Abort` moves the
cursor from the sentinel 63 to 64 without running the handler, and `Next` with
the cursor already past the end moves it from 1 to 2. -/
theorem abort_sentinel_and_next_noop_witness :
    Context.NextM [fun s => { s with out := s.out ++ ["X"] }] 7
        (Context.AbortM ⟨-1, []⟩) = ⟨64, []⟩
  ∧ Context.NextM [fun s => { s with out := s.out ++ ["X"] }] 7 ⟨1, []⟩ = ⟨2, []⟩ := by
  have h := abort_sentinel_and_next_noop
    [fun s => { s with out := s.out ++ ["X"] }] ⟨-1, []⟩ ⟨1, []⟩ 7 (by decide)
  exact ⟨h.2.2.2.1, h.2.2.2.2.1 (by decide) (by decide)⟩

/-- One response-writer call adds exactly the bytes it writes to the size. -/
theorem applyOp_size (rw : responseWriterM) (op : RWOp) :
    (applyOp rw op).size = rw.size + (bytesOf op : Int) := by
  cases op with
  | writeHeader s => simp [applyOp, responseWriterM.WriteHeader, bytesOf]
  | write d =>
    simp only [applyOp, responseWriterM.Write, bytesOf]
    split <;> simp [responseWriterM.WriteHeader]

/-- A call sequence accumulates exactly the bytes written. -/
theorem runOps_size (ops : List RWOp) :
    ∀ rw : responseWriterM,
      (runOps rw ops).size = rw.size + ((ops.map bytesOf).sum : Int) := by
  induction ops with
  | nil => intro rw; simp [runOps]
  | cons op rest ih =>
    intro rw
    show (runOps (applyOp rw op) rest).size = _
    rw [ih, applyOp_size]
    simp only [List.map_cons, List.sum_cons]
    push_cast
    ring

/-- Counterexample for C6: two successive `WriteHeader` calls each change the
recorded status — the tracker does not enforce a set-exactly-once discipline,
so "the status is set exactly once per response" fails on this sequence. -/
theorem responseWriter_status_set_twice :
    statusSets ⟨0, 0, ""⟩ [RWOp.writeHeader 404, RWOp.writeHeader 500] = 2
  ∧ (runOps ⟨0, 0, ""⟩ [RWOp.writeHeader 404, RWOp.writeHeader 500]).status = 500
  ∧ ¬ statusSets ⟨0, 0, ""⟩ [RWOp.writeHeader 404, RWOp.writeHeader 500] ≤ 1 := by
  refine ⟨rfl, rfl, ?_⟩
  decide

/-- C6 (amended): `Written() == (Status() != 0)` holds after every call
sequence; the first `Write` implicitly sets the status to 200 when unset;
`Size()` accumulates exactly the bytes written and never decreases; but each
explicit `WriteHeader` overwrites the recorded status, so the status is only
set at most once implicitly, not at most once overall. -/
theorem responseWriter_invariants
    (rw rw0 : responseWriterM) (ops : List RWOp) (data : String) (s : Int)
    (h0 : rw0.status = 0) :
    ((runOps rw ops).Written = true ↔ (runOps rw ops).Status ≠ 0)
  ∧ (rw0.Write data).Status = 200
  ∧ (runOps rw ops).Size = rw.Size + ((ops.map bytesOf).sum : Int)
  ∧ rw.Size ≤ (runOps rw ops).Size
  ∧ (rw.WriteHeader s).Status = s := by
  refine ⟨?_, ?_, ?_, ?_, rfl⟩
  · simp [responseWriterM.Written, responseWriterM.Status]
  · simp [responseWriterM.Write, responseWriterM.Written, responseWriterM.Status, h0,
      responseWriterM.WriteHeader]
  · exact runOps_size ops rw
  · rw [show (runOps rw ops).Size = (runOps rw ops).size from rfl,
      runOps_size ops rw]
    have : (0 : Int) ≤ ((ops.map bytesOf).sum : Int) := by positivity
    show rw.size ≤ rw.size + _
    omega

/-- Witness for C6: a fresh tracker; one write of two bytes yields status 200
and size 2, and the invariants hold on that run. -/
theorem responseWriter_invariants_witness :
    (responseWriterM.Write ⟨0, 0, ""⟩ "hi").Status = 200
  ∧ (runOps ⟨0, 0, ""⟩ [RWOp.write "hi"]).Size
      = (responseWriterM.Size ⟨0, 0, ""⟩) + (([RWOp.write "hi"].map bytesOf).sum : Int)
  ∧ ((runOps ⟨0, 0, ""⟩ [RWOp.write "hi"]).Written = true
      ↔ (runOps ⟨0, 0, ""⟩ [RWOp.write "hi"]).Status ≠ 0) := by
  have h := responseWriter_invariants ⟨0, 0, ""⟩ ⟨0, 0, ""⟩ [RWOp.write "hi"] "hi" 7 rfl
  exact ⟨h.2.1, h.2.2.1, h.1⟩

/-- `Respond 500 b` always records status 500 and appends `b` to the body,
leaving the diagnostics untouched. -/
theorem respond_500_facts (c : PContext) (b : String) :
    (c.Respond 500 b).response.status = 500
  ∧ (c.Respond 500 b).response.body = c.response.body ++ b
  ∧ (c.Respond 500 b).errors = c.errors := by
  refine ⟨?_, ?_, rfl⟩ <;>
    simp [PContext.Respond, PContext.Write, PContext.WriteHeader,
      responseWriterM.Write, responseWriterM.WriteHeader, responseWriterM.Written]

/-- The formatted diagnostic is never the bare panic message. -/
theorem formatted_ne_boom (st : String) : ("boom\nStack trace:\n" ++ st) ≠ "boom" := by
  intro h
  have hlen := congrArg String.length h
  rw [String.length_append] at hlen
  have h18 : ("boom\nStack trace:\n" : String).length = 18 := rfl
  have h4 : ("boom" : String).length = 4 := rfl
  omega

/-- A terminal handler that panics with message `"boom"`. -/
def boomTerminal : PContext → PResult := fun c => (c, some "boom")

/-- A fresh context over an untouched response recorder. -/
def pctx0 : PContext := ⟨⟨0, 0, ""⟩, [], -1⟩

/-- Counterexample for C5: running `Recovery` with a custom handler over a
terminal that panics with `"boom"` stores the formatted diagnostic
`"boom\nStack trace:\n" ++ stack`, not a diagnostic whose message equals
`"boom"`. -/
theorem recovery_formatted_message_cex :
    ((RecoveryM (some (fun c => c.Respond 500 "recovery handler")) "" boomTerminal pctx0).1).errors
      = ["boom\nStack trace:\n"]
  ∧ ¬ ((RecoveryM (some (fun c => c.Respond 500 "recovery handler")) "" boomTerminal pctx0).1).errors
      = ["boom"] := by
  exact ⟨rfl, by decide⟩

/-- C5 (amended): a pipeline whose terminal panics with `"boom"` wrapped by
`Recovery`: with no custom handler the result has status 500 and body
`"Internal server error"` (appended to whatever was written before); with a
custom handler the result is exactly the custom handler's output on the
aborted context carrying the formatted diagnostic
`"boom\nStack trace:\n" ++ stack` — which begins with but never equals
`"boom"`; in both cases the panic does not propagate past `Recovery`. -/
theorem recovery_amended (stackTrace : String) (ctx : PContext) (inner : PContext → PResult)
    (hpanic : (inner ctx).2 = some "boom")
    (hnw : (inner ctx).1.ResponseWritten = false) :
    ((RecoveryM none stackTrace inner ctx).2 = none
   ∧ (RecoveryM none stackTrace inner ctx).1.response.status = 500
   ∧ (RecoveryM none stackTrace inner ctx).1.response.body
       = (inner ctx).1.response.body ++ "Internal server error"
   ∧ (RecoveryM none stackTrace inner ctx).1.errors
       = (inner ctx).1.errors ++ ["boom\nStack trace:\n" ++ stackTrace])
  ∧ (∀ h : PContext → PContext,
      (h (((inner ctx).1.Abort).addError ("boom\nStack trace:\n" ++ stackTrace))).ResponseWritten
        = true →
      RecoveryM (some h) stackTrace inner ctx
        = (h (((inner ctx).1.Abort).addError ("boom\nStack trace:\n" ++ stackTrace)), none))
  ∧ ("boom\nStack trace:\n" ++ stackTrace) ≠ "boom" := by
  have hpair : inner ctx = ((inner ctx).1, some "boom") := by
    rw [← hpanic]
  have habort : ∀ e : String,
      ((((inner ctx).1.Abort).addError e).ResponseWritten) = false := by
    intro e
    simpa [PContext.Abort, PContext.addError, PContext.ResponseWritten] using hnw
  refine ⟨?_, ?_, formatted_ne_boom stackTrace⟩
  · rw [show RecoveryM none stackTrace inner ctx
        = ((((inner ctx).1.Abort).addError
            ("boom\nStack trace:\n" ++ stackTrace)).Respond 500 "Internal server error", none) by
      rw [RecoveryM, hpair]
      simp [habort]]
    have hr := respond_500_facts
      ((((inner ctx).1.Abort).addError ("boom\nStack trace:\n" ++ stackTrace)))
      "Internal server error"
    refine ⟨rfl, hr.1, ?_, ?_⟩
    · rw [hr.2.1]
      rfl
    · rw [hr.2.2]
      rfl
  · intro h hw
    rw [RecoveryM, hpair]
    simp [hw]

/-- Witness for C5: concrete runs of `Recovery` over the `"boom"`-panicking
terminal: the default branch yields status 500 with body
`"Internal server error"`, and a writing custom handler's output is the
response. -/
theorem recovery_amended_witness :
    (RecoveryM none "ST" boomTerminal pctx0).2 = none
  ∧ (RecoveryM none "ST" boomTerminal pctx0).1.response.status = 500
  ∧ (RecoveryM none "ST" boomTerminal pctx0).1.response.body = "Internal server error"
  ∧ RecoveryM (some (fun c => c.Respond 500 "recovery handler")) "ST" boomTerminal pctx0
      = ((pctx0.Abort.addError "boom\nStack trace:\nST").Respond 500 "recovery handler", none) := by
  have h := recovery_amended "ST" pctx0 boomTerminal rfl rfl
  refine ⟨h.1.1, h.1.2.1, ?_, ?_⟩
  · have hb := h.1.2.2.1
    exact hb
  · exact h.2.1 (fun c => c.Respond 500 "recovery handler") rfl

/-- The failing input for C3: a request carrying `X-Request-Id: test-12345`
with untouched response headers and an empty value bag. -/
def c3FailingCtx : HContext := ⟨[("X-Request-Id", "test-12345")], [], []⟩

/-- C3: the `RequestID` middleware consults the response header map (as
`Context.Header` returns it), so on a request whose INBOUND header carries
`"test-12345"` it still stores the synthesized `<pfx>-<counter>` id — the
stored value is independent of the request headers, and at the concrete
prefix/counter it differs from `"test-12345"`. -/
theorem requestID_reads_response_headers :
    (∀ (reqPfx : String) (ctr : Int),
        (RequestIDM reqPfx ctr c3FailingCtx).1.values
          = [(RequestIDKey, reqPfx ++ "-" ++ toString (ctr + 1))]
      ∧ (RequestIDM reqPfx ctr c3FailingCtx).1.values
          = (RequestIDM reqPfx ctr { c3FailingCtx with requestHeaders := [] }).1.values)
  ∧ (RequestIDM "abcdefghij" 0 c3FailingCtx).1.values = [(RequestIDKey, "abcdefghij-1")]
  ∧ ("abcdefghij-1" : String) ≠ "test-12345" := by
  refine ⟨fun reqPfx ctr => ⟨rfl, rfl⟩, rfl, by decide⟩

/-- C7: registering `"/test"` under a group with base path `"/group"` computes
the absolute path `"/group/test"`; an empty relative path reuses the group's
own path unchanged; and a relative path ending in `/` whose joined result
dropped the slash gets a single trailing slash restored. -/
theorem calculateAbsolutePath_spec :
    calculateAbsolutePath ⟨"/group", NewChain []⟩ "/test" = "/group/test"
  ∧ (∀ (p : String) (c : Chain), calculateAbsolutePath ⟨p, c⟩ "" = p)
  ∧ (∀ (p r : String) (c : Chain), r ≠ "" → lastChar r = '/' →
      lastChar (goPathJoin p r) ≠ '/' →
      calculateAbsolutePath ⟨p, c⟩ r = goPathJoin p r ++ "/") := by
  refine ⟨rfl, fun p c => rfl, ?_⟩
  intro p r c hne hsl hjoin
  have hlen : ¬ r.length = 0 := by
    intro h0
    apply hne
    cases r with
    | mk data =>
      cases data with
      | nil => rfl
      | cons a l => simp [String.length] at h0
  show calculateAbsolutePath ⟨p, c⟩ r = _
  unfold calculateAbsolutePath
  rw [if_neg hlen]
  simp only [if_pos (And.intro hsl hjoin)]

/-- Witness for C7: `"test/"` under `"/group"`: the join drops the trailing
slash and `calculateAbsolutePath` restores it. -/
theorem calculateAbsolutePath_spec_witness :
    calculateAbsolutePath ⟨"/group", NewChain []⟩ "test/" = goPathJoin "/group" "test/" ++ "/"
  ∧ goPathJoin "/group" "test/" ++ "/" = "/group/test/" := by
  refine ⟨?_, rfl⟩
  exact calculateAbsolutePath_spec.2.2 "/group" "test/" (NewChain [])
    (by decide) rfl (by decide)

/-- C10: `webapp.Use` re-composes the router's NotFound and MethodNotAllowed
fallbacks with the extended chain, so a fallback handler installed before the
`Use` call still executes middleware added afterwards — unlike an ordinary
route registered before the `Use`, whose snapshot handler stays without the
new middleware. -/
theorem use_recomposes_fallbacks :
    ∀ (t t2 : List String) (m : String),
      (webapp.Use (webapp.NotFound webapp.New (some (terminalWriter t)))
          [middlewareWriter m]).routerNotFound [] = m :: t
    ∧ ((webapp.Use (webapp.MethodNotAllowed webapp.New (some (terminalWriter t2)))
          [middlewareWriter m]).routerNotAllowed.map (fun h => h [])) = some (m :: t2)
    ∧ (routeGroup.Handle ⟨"/", NewChain []⟩ "GET" "/test" (terminalWriter t)).handler [] = t := by
  intro t t2 m
  refine ⟨rfl, rfl, rfl⟩
